import Mathlib

/-!
# Verification of the skylane connection core

Shallow embedding of the `skylane` crate's connection core
(`src/connection.rs`, `src/bundle.rs`, `src/sockets.rs`, `src/defs.rs`)
together with proofs about its framing loop, registry mutation, ID
allocation, socket serial counter and default-path resolution.

Conventions of the embedding:

* Machine integers (`u16`, `u32`) are `Nat` with explicit `% 2 ^ w`
  wrapping where overflow matters (release-mode two's-complement
  semantics).
* Fallible Rust code returns `Except SkylaneError _` or `Option _`.
* The `while` loop of `Connection::process_events` may diverge (its
  cursor is advanced by the attacker-controlled `header.size`), so it is
  embedded with an explicit fuel parameter; exhausting the fuel yields
  `Option.none` in the first result component, and a run that returns
  `Option.none` for every fuel is a non-terminating run.
* `NativeEndian` reads are modelled as little-endian (the byte order of
  every platform the crate targets); no claim depends on the choice.
-/

namespace Skylane

/-- Error enumeration of `defs.rs` (`enum SkylaneError`).  The Rust
variant `IO` is spelled `ioError` here; the other variant names are the
source's. -/
inductive SkylaneError where
  | ioError (description : String)
  | socketError (description : String)
  | WrongObject (object_id : Nat)
  | WrongOpcode (name : String) (object_id : Nat) (opcode : Nat)
  | Other (description : String)
  deriving DecidableEq

/-- Message header of `defs.rs` (`struct Header`): object id (`u32`),
opcode (`u16`), total message size in bytes including the header
(`u16`). -/
structure Header where
  object_id : Nat
  opcode : Nat
  size : Nat
  deriving DecidableEq

mutual
/-- Return enumeration for callbacks (`enum Task` of `defs.rs`):
`Create` carries the new object id and the object to insert, `Destroy`
the id to remove, `None` requests nothing. -/
inductive Task where
  | create : Nat → Object → Task
  | destroy : Nat → Task
  | none : Task

/-- Result of one handler `dispatch` call: `Result<Task, SkylaneError>`
in the source. -/
inductive DispatchResult where
  | ok : Task → DispatchResult
  | err : SkylaneError → DispatchResult

/-- Modelled from the spec: the `Object` trait lives in `object.rs`,
which is not part of the sources at hand.  Per the spec a handler is "an
opaque polymorphic value satisfying the capability set
dispatch(registry-view, header, payload-cursor, fd-cursor) -> Task",
and during dispatch it "held only a reference to the Registry ... and
did not itself mutate it"; handlers never mutate the registry inline.
Accordingly an object is embedded as a function from the received
header to the dispatch result (none of the verified claims inspects the
payload or fd cursors, so the cursor arguments are not threaded
through). -/
inductive Object where
  | mk : (Header → DispatchResult) → Object
end

/-- Invoke the handler's dispatch operation. -/
def Object.dispatch : Object → Header → DispatchResult
  | .mk f, h => f h

/-- The object table held by `Bundle`
(`HashMap<ObjectId, Rc<RefCell<Box<Object>>>>`), embedded as an
association list; all observations go through the operations below,
which reproduce the `HashMap` semantics (`get`, replacing `insert`,
`remove`, `keys().max()`). -/
abbrev ObjMap := List (Nat × Object)

/-- `HashMap::get` (used by `Bundle::get_handler`). -/
def omGet (o : ObjMap) (id : Nat) : Option Object :=
  (o.find? (fun p => p.1 == id)).map (fun p => p.2)

/-- `HashMap::remove` (used by `Bundle::remove_object`). -/
def omRemove (o : ObjMap) (id : Nat) : ObjMap :=
  o.filter (fun p => p.1 != id)

/-- `HashMap::insert` (used by `Bundle::add_object`): replaces any prior
binding of the same key. -/
def omInsert (o : ObjMap) (id : Nat) (obj : Object) : ObjMap :=
  (id, obj) :: omRemove o id

/-- `self.objects.borrow().keys().max()` of `bundle.rs`. -/
def omMaxKey (o : ObjMap) : Option Nat :=
  (o.map Prod.fst).max?

/-- An id is registered when the table has an entry for it. -/
abbrev registered (o : ObjMap) (id : Nat) : Prop :=
  id ∈ o.map Prod.fst

/-- Modelled from the spec: `ObjectId` (`object.rs`, not among the
sources) is "a 32-bit unsigned integer, totally ordered, with a
successor operation"; embedded as `Nat`, values kept below `2 ^ 32`. -/
abbrev ObjectId := Nat

/-- Modelled from the spec: the successor operation of `ObjectId`, with
`u32` wrapping. -/
def ObjectId.incremented (id : ObjectId) : ObjectId :=
  (id + 1) % 2 ^ 32

/-- Modelled from the spec: the well-known root object id.  The spec
fixes only that client-allocated ids occupy the range from `DISPLAY_ID`
(inclusive) up to `SERVER_START_ID` (exclusive); the concrete value is
the Wayland display id and no proof depends on it. -/
def DISPLAY_ID : ObjectId := 1

/-- Modelled from the spec: lower bound of the server-allocated id
range; the concrete value is the conventional Wayland one and no proof
depends on it. -/
def SERVER_START_ID : ObjectId := 0xff000000

/-- `Bundle::get_next_available_client_object_id`.  The receiver is
`&self` and the body only takes a read borrow of the table, so the
state-passing embedding returns the table unchanged alongside the id. -/
def get_next_available_client_object_id (o : ObjMap) : ObjectId × ObjMap :=
  (match omMaxKey o with
   | some m => if DISPLAY_ID ≤ m then ObjectId.incremented m else DISPLAY_ID
   | Option.none => DISPLAY_ID, o)

/-- `Bundle::get_next_available_server_object_id`, symmetric to the
client version with `SERVER_START_ID` as threshold and empty-case
value. -/
def get_next_available_server_object_id (o : ObjMap) : ObjectId × ObjMap :=
  (match omMaxKey o with
   | some m => if SERVER_START_ID ≤ m then ObjectId.incremented m else SERVER_START_ID
   | Option.none => SERVER_START_ID, o)

/-! ## Wire format: cursor reads and header parsing -/

/-- Read `n` bytes of the buffer starting at `pos`; fails (like a
`Cursor` read past the end, an `UnexpectedEof` io error in the source)
when fewer than `n` bytes remain. -/
def readBytes (buf : List Nat) (pos n : Nat) : Option (List Nat) :=
  if pos + n ≤ buf.length then some ((buf.drop pos).take n) else Option.none

/-- Little-endian value of a byte list. -/
def leVal (bs : List Nat) : Nat :=
  bs.foldr (fun b acc => b + 256 * acc) 0

/-- `read_u16::<NativeEndian>` at an absolute position. -/
def readU16 (buf : List Nat) (pos : Nat) : Option Nat :=
  (readBytes buf pos 2).map leVal

/-- `read_u32::<NativeEndian>` at an absolute position. -/
def readU32 (buf : List Nat) (pos : Nat) : Option Nat :=
  (readBytes buf pos 4).map leVal

/-- The header construction of `Connection::process_events`: after
seeking to `pos`, read `object_id` (u32), `opcode` (u16) and `size`
(u16); any failed read aborts with an io error. -/
def parseHeader (buf : List Nat) (pos : Nat) : Option Header :=
  match readU32 buf pos, readU16 buf (pos + 4), readU16 buf (pos + 6) with
  | some oid, some op, some sz => some ⟨oid, op, sz⟩
  | _, _, _ => Option.none

/-- Little-endian encoding of a `u16`. -/
def encodeU16 (n : Nat) : List Nat :=
  [n % 256, n / 256 % 256]

/-- Little-endian encoding of a `u32`. -/
def encodeU32 (n : Nat) : List Nat :=
  [n % 256, n / 256 % 256, n / 2 ^ 16 % 256, n / 2 ^ 24 % 256]

/-- Wire encoding of a header: 8 bytes. -/
def encodeHeader (h : Header) : List Nat :=
  encodeU32 h.object_id ++ encodeU16 h.opcode ++ encodeU16 h.size

/-- A message is a header plus its payload bytes (the part of the
message after the 8 header bytes). -/
abbrev Msg := Header × List Nat

/-- Wire encoding of a message. -/
def encodeMsg (m : Msg) : List Nat :=
  encodeHeader m.1 ++ m.2

/-- Well-formed message: header fields in `u32`/`u16` range, payload
bytes in range, and the header's `size` field equal to the total
encoded length (8 header bytes plus payload), hence at least 8. -/
abbrev MsgWF (m : Msg) : Prop :=
  m.1.object_id < 2 ^ 32 ∧ m.1.opcode < 2 ^ 16 ∧ m.1.size < 2 ^ 16 ∧
    m.1.size = 8 + m.2.length ∧ ∀ b ∈ m.2, b < 256

/-! ## The dispatch loop of `Connection::process_events` -/

/-- Application of the `match task` block at the end of
`Connection::process_event`: `Create` inserts, `Destroy` removes,
`None` does nothing. -/
def applyTask (o : ObjMap) : Task → ObjMap
  | .create id obj => omInsert o id obj
  | .destroy id => omRemove o id
  | .none => o

/-- `Connection::process_event`: look the handler up under
`header.object_id` (a `WrongObject` failure if absent), invoke its
dispatch, and apply the returned task.  The second component is the
instrumentation trace: one entry per dispatch call actually made,
recording the header it was passed. -/
def processEvent (o : ObjMap) (header : Header) :
    Except SkylaneError ObjMap × List Header :=
  match omGet o header.object_id with
  | Option.none => (Except.error (SkylaneError.WrongObject header.object_id), [])
  | some handler =>
    match handler.dispatch header with
    | .err e => (Except.error e, [header])
    | .ok task => (Except.ok (applyTask o task), [header])

/-- The `while position < bytes_size` loop of
`Connection::process_events`, with fuel.  Returns the outcome
(`Option.none` when the fuel ran out before the loop exited, otherwise
the `Result<(), SkylaneError>` of the source), the object table after
the run, and the concatenated dispatch trace.  On an error the table of
the failing state is returned: in the source the table lives in
`self.bundle` and mutations made by earlier iterations survive the
error return. -/
def processLoop (o : ObjMap) (buf : List Nat) (bytesSize pos fuel : Nat) :
    Option (Except SkylaneError Unit) × ObjMap × List Header :=
  if pos < bytesSize then
    match fuel with
    | 0 => (Option.none, o, [])
    | fuel + 1 =>
      match parseHeader buf pos with
      | Option.none =>
        (some (Except.error (SkylaneError.ioError "failed to fill whole buffer")), o, [])
      | some header =>
        match processEvent o header with
        | (Except.error e, tr) => (some (Except.error e), o, tr)
        | (Except.ok o2, tr) =>
          match processLoop o2 buf bytesSize (pos + header.size) fuel with
          | (r, o3, tr2) => (r, o3, tr ++ tr2)
  else (some (Except.ok ()), o, [])

/-- `Connection::process_events` after the receive: the received bytes
`data` sit at the start of the 1024-byte scratch buffer (the rest of
which is zeroed), `bytes_size` is the received byte count, and the
cursor starts at 0.  `receive_message` writes into a 1024-byte buffer,
so `data.length ≤ 1024` for every batch the socket can actually
produce. -/
def processEvents (o : ObjMap) (data : List Nat) (fuel : Nat) :
    Option (Except SkylaneError Unit) × ObjMap × List Header :=
  processLoop o (data ++ List.replicate (1024 - data.length) 0) data.length 0 fuel

/-- Spec-level description of a clean batch run: each listed header
finds a handler in the current table, its dispatch succeeds, and the
returned task is applied before the next header is handled.
`Dispatches o hs o2` pins down the table `o2` after the whole batch. -/
inductive Dispatches : ObjMap → List Header → ObjMap → Prop where
  | nil (o : ObjMap) : Dispatches o [] o
  | cons {o o2 : ObjMap} {h : Header} {hs : List Header}
      (handler : Object) (task : Task)
      (hget : omGet o h.object_id = some handler)
      (hdisp : handler.dispatch h = .ok task)
      (hrest : Dispatches (applyTask o task) hs o2) :
      Dispatches o (h :: hs) o2

/-! ## Sockets (`sockets.rs`) -/

/-- `struct Socket` of `sockets.rs`: a raw descriptor, the serial
counter (`Cell<u32>`, stored by value inside the struct) and the
optional logger.  `#[derive(Clone)]` clones field by field, and
`Clone` for `Cell<u32>` copies the contained value, so a clone carries
an independent copy of the counter; the embedding therefore treats a
socket as a plain value. -/
structure Socket where
  fd : Int
  next_serial : Nat
  logger : Option (String → Unit)

/-- The derived `Clone::clone` of `Socket`: field-by-field copy. -/
def Socket.clone (s : Socket) : Socket :=
  { fd := s.fd, next_serial := s.next_serial, logger := s.logger }

/-- `Socket::get_next_serial`: return the current counter value, then
store its successor (u32 wrapping). -/
def Socket.get_next_serial (s : Socket) : Nat × Socket :=
  (s.next_serial, { s with next_serial := (s.next_serial + 1) % 2 ^ 32 })

/-- A socket as produced by `Socket::connect` or `Socket::new` (the
accept path): counter initialized at zero, no logger. -/
def Socket.fresh (fd : Int) : Socket :=
  { fd := fd, next_serial := 0, logger := Option.none }

/-- The socket after `n` consecutive `get_next_serial` calls. -/
def Socket.afterCalls (s : Socket) : Nat → Socket
  | 0 => s
  | n + 1 => (Socket.afterCalls s n).get_next_serial.2

/-- The value returned by the `(n+1)`-th consecutive `get_next_serial`
call on a socket. -/
def Socket.serialAt (s : Socket) (n : Nat) : Nat :=
  (Socket.afterCalls s n).get_next_serial.1

/-! ## Default socket path (`get_default_socket_path` of `sockets.rs`) -/

/-- Whether a path string is absolute (begins with the separator). -/
def isAbsolutePath (s : String) : Bool :=
  match s.data with
  | [] => false
  | c :: _ => c = '/'

/-- Whether a path string already ends with the separator. -/
def endsWithSep (s : String) : Bool :=
  match s.data.getLast? with
  | some c => c = '/'
  | Option.none => false

/-- `std::path::PathBuf::push` for the shapes reachable here: an
absolute component replaces the whole path, otherwise the component is
appended after a separator (none added if the base already ends with
one). -/
def pathPush (base child : String) : String :=
  if isAbsolutePath child then child
  else if endsWithSep base then base ++ child
  else base ++ "/" ++ child

/-- `get_default_socket_path`, with the process environment passed
explicitly.  `std::env::var` on an unset variable yields
`VarError::NotPresent`, whose `description()` is the string below; the
`From<std::env::VarError>` impl of `defs.rs` wraps it in
`SkylaneError::Other`. -/
def get_default_socket_path (env : String → Option String) :
    Except SkylaneError String :=
  match env "XDG_RUNTIME_DIR" with
  | Option.none => Except.error (SkylaneError.Other "environment variable not found")
  | some dir =>
    match env "WAYLAND_DISPLAY" with
    | some sock => Except.ok (pathPush dir sock)
    | Option.none => Except.ok (pathPush dir "wayland-0")

/-! ## Shared registry: `Bundle`, `Connection`, `Controller`

`Bundle` stores the object table behind `Rc<RefCell<...>>` and
`Bundle::duplicate` clones the `Rc`, so a duplicate addresses the same
table.  The embedding makes the heap explicit: an `ObjStore` maps cell
addresses to tables, a bundle holds the address of its table, and
duplicating a bundle copies the address (and clones the socket value).
`processEvents` above works on the table directly: during a
`process_events` call only `self.bundle` accesses the table, so that
function is the projection of the store at the connection's address. -/

/-- Heap of `Rc<RefCell<HashMap<ObjectId, ...>>>` cells. -/
def ObjStore : Type := Nat → ObjMap

/-- `struct Bundle`: a socket (held by value) and the address of the
shared object table. -/
structure Bundle where
  socket : Socket
  objectsAddr : Nat

/-- `Bundle::new`: fresh table cell at the given address. -/
def Bundle.new (socket : Socket) (addr : Nat) : Bundle :=
  { socket := socket, objectsAddr := addr }

/-- `Bundle::duplicate`: clone the socket, clone the `Rc` (same
address). -/
def Bundle.duplicate (b : Bundle) : Bundle :=
  { socket := b.socket.clone, objectsAddr := b.objectsAddr }

/-- `Bundle::get_socket`: returns a clone of the socket. -/
def Bundle.get_socket (b : Bundle) : Socket :=
  b.socket.clone

/-- `Bundle::add_object` as a transformation of the heap: insert into
the table this bundle addresses. -/
def Bundle.add_object (b : Bundle) (σ : ObjStore) (id : Nat) (obj : Object) :
    ObjStore :=
  fun a => if a = b.objectsAddr then omInsert (σ a) id obj else σ a

/-- `Bundle::get_handler`: look the object up in the addressed table,
`WrongObject` if absent. -/
def Bundle.get_handler (b : Bundle) (σ : ObjStore) (object_id : Nat) :
    Except SkylaneError Object :=
  match omGet (σ b.objectsAddr) object_id with
  | some obj => Except.ok obj
  | Option.none => Except.error (SkylaneError.WrongObject object_id)

/-- `struct Connection`. -/
structure Connection where
  bundle : Bundle

/-- `struct Controller`. -/
structure Controller where
  bundle : Bundle

/-- `Connection::get_controller`: a controller over a duplicate of the
bundle. -/
def Connection.get_controller (c : Connection) : Controller :=
  { bundle := c.bundle.duplicate }

/-- `Clone for Controller`: `Controller::new(self.bundle.duplicate())`. -/
def Controller.clone (c : Controller) : Controller :=
  { bundle := c.bundle.duplicate }

/-- `Connection::add_object` (delegates to the bundle). -/
def Connection.add_object (c : Connection) (σ : ObjStore) (id : Nat)
    (obj : Object) : ObjStore :=
  c.bundle.add_object σ id obj

/-- `Controller::add_object` (delegates to the bundle). -/
def Controller.add_object (c : Controller) (σ : ObjStore) (id : Nat)
    (obj : Object) : ObjStore :=
  c.bundle.add_object σ id obj

/-- `Connection::get_socket`. -/
def Connection.get_socket (c : Connection) : Socket :=
  c.bundle.get_socket

/-- `Controller::get_socket`. -/
def Controller.get_socket (c : Controller) : Socket :=
  c.bundle.get_socket

/-! ## Concrete handlers used by witnesses and counterexamples -/

/-- A handler that requests nothing on every message. -/
def objNone : Object := Object.mk (fun _ => DispatchResult.ok Task.none)

/-- A handler that asks for the object under id 2 to be destroyed. -/
def objDestroyTwo : Object := Object.mk (fun _ => DispatchResult.ok (Task.destroy 2))

/-- A handler that asks for `objNone` to be inserted under id 2. -/
def objCreateTwo : Object := Object.mk (fun _ => DispatchResult.ok (Task.create 2 objNone))

/-- A handler whose dispatch fails. -/
def objFail : Object := Object.mk (fun _ => DispatchResult.err (SkylaneError.Other "dispatch failed"))

/-! ## Helper lemmas -/

theorem omGet_omInsert_self (o : ObjMap) (id : Nat) (obj : Object) :
    omGet (omInsert o id obj) id = some obj := by
  simp [omGet, omInsert, List.find?]

theorem omGet_omRemove_self (o : ObjMap) (id : Nat) :
    omGet (omRemove o id) id = Option.none := by
  induction o with
  | nil => rfl
  | cons p t ih =>
    by_cases hp : p.1 = id
    · simp only [omRemove, List.filter_cons, hp, bne_self_eq_false, if_neg,
        Bool.false_eq_true, not_false_eq_true, ite_cond_eq_false]
      simp only [omRemove] at ih
      exact ih
    · have hne : (p.1 != id) = true := by simpa using hp
      have hbe : (p.1 == id) = false := by simpa using hp
      simp only [omRemove, List.filter_cons, hne, if_pos] at *
      simp only [omGet, List.find?, hbe] at *
      exact ih

theorem leVal_encodeU16 {n : Nat} (h : n < 2 ^ 16) : leVal (encodeU16 n) = n := by
  simp only [encodeU16, leVal, List.foldr]
  omega

theorem leVal_encodeU32 {n : Nat} (h : n < 2 ^ 32) : leVal (encodeU32 n) = n := by
  simp only [encodeU32, leVal, List.foldr]
  omega

theorem drop_concat_left (pre l : List Nat) :
    (pre ++ l).drop pre.length = l :=
  List.drop_left pre l

theorem parseHeader_at_cons (pre tail : List Nat) (b0 b1 b2 b3 b4 b5 b6 b7 : Nat) :
    parseHeader (pre ++ (b0 :: b1 :: b2 :: b3 :: b4 :: b5 :: b6 :: b7 :: tail)) pre.length
      = some ⟨leVal [b0, b1, b2, b3], leVal [b4, b5], leVal [b6, b7]⟩ := by
  have hlen : (pre ++ (b0 :: b1 :: b2 :: b3 :: b4 :: b5 :: b6 :: b7 :: tail)).length
      = pre.length + (8 + tail.length) := by simp; omega
  have hdrop0 : (pre ++ (b0 :: b1 :: b2 :: b3 :: b4 :: b5 :: b6 :: b7 :: tail)).drop pre.length
      = b0 :: b1 :: b2 :: b3 :: b4 :: b5 :: b6 :: b7 :: tail := drop_concat_left _ _
  have hdrop4 : (pre ++ (b0 :: b1 :: b2 :: b3 :: b4 :: b5 :: b6 :: b7 :: tail)).drop (pre.length + 4)
      = b4 :: b5 :: b6 :: b7 :: tail := by
    rw [← List.drop_drop, hdrop0]
    rfl
  have hdrop6 : (pre ++ (b0 :: b1 :: b2 :: b3 :: b4 :: b5 :: b6 :: b7 :: tail)).drop (pre.length + 6)
      = b6 :: b7 :: tail := by
    rw [← List.drop_drop, hdrop0]
    rfl
  have h32 : readU32 (pre ++ (b0 :: b1 :: b2 :: b3 :: b4 :: b5 :: b6 :: b7 :: tail)) pre.length
      = some (leVal [b0, b1, b2, b3]) := by
    unfold readU32 readBytes
    rw [if_pos (by rw [hlen]; omega), hdrop0]
    rfl
  have h16a : readU16 (pre ++ (b0 :: b1 :: b2 :: b3 :: b4 :: b5 :: b6 :: b7 :: tail)) (pre.length + 4)
      = some (leVal [b4, b5]) := by
    unfold readU16 readBytes
    rw [if_pos (by rw [hlen]; omega), hdrop4]
    rfl
  have h16b : readU16 (pre ++ (b0 :: b1 :: b2 :: b3 :: b4 :: b5 :: b6 :: b7 :: tail)) (pre.length + 6)
      = some (leVal [b6, b7]) := by
    unfold readU16 readBytes
    rw [if_pos (by rw [hlen]; omega), hdrop6]
    rfl
  unfold parseHeader
  rw [h32, h16a, h16b]

theorem parseHeader_encode (pre rest : List Nat) (h : Header)
    (h1 : h.object_id < 2 ^ 32) (h2 : h.opcode < 2 ^ 16) (h3 : h.size < 2 ^ 16) :
    parseHeader (pre ++ (encodeHeader h ++ rest)) pre.length = some h := by
  have hb : encodeHeader h ++ rest
      = h.object_id % 256 :: h.object_id / 256 % 256 :: h.object_id / 2 ^ 16 % 256 ::
        h.object_id / 2 ^ 24 % 256 :: h.opcode % 256 :: h.opcode / 256 % 256 ::
        h.size % 256 :: h.size / 256 % 256 :: rest := by
    simp [encodeHeader, encodeU32, encodeU16]
  rw [hb, parseHeader_at_cons]
  have e1 : leVal [h.object_id % 256, h.object_id / 256 % 256, h.object_id / 2 ^ 16 % 256,
      h.object_id / 2 ^ 24 % 256] = h.object_id := leVal_encodeU32 h1
  have e2 : leVal [h.opcode % 256, h.opcode / 256 % 256] = h.opcode := leVal_encodeU16 h2
  have e3 : leVal [h.size % 256, h.size / 256 % 256] = h.size := leVal_encodeU16 h3
  rw [e1, e2, e3]

theorem length_encodeMsg (m : Msg) : (encodeMsg m).length = 8 + m.2.length := by
  simp [encodeMsg, encodeHeader, encodeU32, encodeU16]
  omega

/-- One `process_event` step under a successful lookup and dispatch. -/
theorem processEvent_ok (o : ObjMap) (h : Header) (handler : Object) (task : Task)
    (hget : omGet o h.object_id = some handler)
    (hdisp : handler.dispatch h = .ok task) :
    processEvent o h = (Except.ok (applyTask o task), [h]) := by
  simp [processEvent, hget, hdisp]

/-- Main induction for clean batches: starting at cursor position
`pre.length` with the encoded messages followed by exactly
`bytesSize - pos` bytes of batch, the loop dispatches each message once
in order and stops cleanly. -/
theorem processLoop_run (msgs : List Msg) :
    ∀ (o o2 : ObjMap) (pre suf : List Nat) (fuel : Nat),
      (∀ m ∈ msgs, MsgWF m) →
      Dispatches o (msgs.map Prod.fst) o2 →
      msgs.length ≤ fuel →
      processLoop o (pre ++ ((msgs.map encodeMsg).flatten ++ suf))
          (pre.length + ((msgs.map encodeMsg).flatten).length) pre.length fuel
        = (some (Except.ok ()), o2, msgs.map Prod.fst) := by
  induction msgs with
  | nil =>
    intro o o2 pre suf fuel hwf hd hfuel
    cases hd
    rw [processLoop.eq_def]
    simp
  | cons m rest ih =>
    intro o o2 pre suf fuel hwf hd hfuel
    have hwfm : MsgWF m := hwf m (by simp)
    have hsz : m.1.size = 8 + m.2.length := hwfm.2.2.2.1
    simp only [List.map_cons, List.flatten_cons] at *
    cases hd with
    | cons handler task hget hdisp hrest =>
      cases fuel with
      | zero => simp at hfuel
      | succ fuel =>
        have hlenflat : (encodeMsg m ++ (rest.map encodeMsg).flatten).length
            = (encodeMsg m).length + ((rest.map encodeMsg).flatten).length := by
          simp
        have hbuf : pre ++ ((encodeMsg m ++ (rest.map encodeMsg).flatten) ++ suf)
            = pre ++ (encodeHeader m.1 ++ (m.2 ++ ((rest.map encodeMsg).flatten ++ suf))) := by
          simp [encodeMsg, List.append_assoc]
        have hpos : pre.length < pre.length + (encodeMsg m ++ (rest.map encodeMsg).flatten).length := by
          rw [hlenflat, length_encodeMsg]
          omega
        have hparse : parseHeader (pre ++ ((encodeMsg m ++ (rest.map encodeMsg).flatten) ++ suf))
            pre.length = some m.1 := by
          rw [hbuf]
          exact parseHeader_encode pre (m.2 ++ ((rest.map encodeMsg).flatten ++ suf)) m.1
            hwfm.1 hwfm.2.1 hwfm.2.2.1
        rw [processLoop.eq_def]
        rw [if_pos hpos]
        simp only [hparse, processEvent_ok o m.1 handler task hget hdisp]
        have hposrec : pre.length + m.1.size = (pre ++ encodeMsg m).length := by
          rw [List.length_append, length_encodeMsg, hsz]
        have hbufrec : pre ++ ((encodeMsg m ++ (rest.map encodeMsg).flatten) ++ suf)
            = (pre ++ encodeMsg m) ++ ((rest.map encodeMsg).flatten ++ suf) := by
          simp [List.append_assoc]
        have hsizerec : pre.length + (encodeMsg m ++ (rest.map encodeMsg).flatten).length
            = (pre ++ encodeMsg m).length + ((rest.map encodeMsg).flatten).length := by
          simp
          omega
        have hfuelrec : rest.length ≤ fuel := by
          simp only [List.length_cons] at hfuel
          omega
        rw [hposrec, hbufrec, hsizerec,
          ih (applyTask o task) o2 (pre ++ encodeMsg m) suf fuel
            (fun x hx => hwf x (by simp [hx])) hrest hfuelrec]
        simp

/-- Claim C9: `process_events` does not terminate on a zero-size
header.  At any loop state whose 8-byte header parses with a size field
of 0 and whose dispatch succeeds with `Task::None`, the cursor is never
advanced: for every fuel the run is cut off rather than returning, the
table never changes, and the trace shows the same message re-dispatched
once per unit of fuel — the loop re-dispatches that message forever.
(`processEvents` enters the loop at position 0, so the statement covers
every position the framing loop can reach.) -/
theorem claim_C9_zero_size_nontermination (o : ObjMap) (buf : List Nat) (bytesSize pos : Nat)
    (h : Header) (handler : Object)
    (hlt : pos < bytesSize)
    (hparse : parseHeader buf pos = some h)
    (hsz : h.size = 0)
    (hget : omGet o h.object_id = some handler)
    (hdisp : handler.dispatch h = .ok Task.none) :
    ∀ fuel, processLoop o buf bytesSize pos fuel
      = (Option.none, o, List.replicate fuel h) := by
  intro fuel
  induction fuel with
  | zero =>
    rw [processLoop.eq_def, if_pos hlt]
    rfl
  | succ fuel ih =>
    rw [processLoop.eq_def, if_pos hlt]
    have hpe : processEvent o h = (Except.ok o, [h]) :=
      processEvent_ok o h handler Task.none hget hdisp
    simp only [hparse, hpe, hsz, Nat.add_zero, ih, List.replicate_succ]
    rfl

/-- Unfolding of `keys().max()`: the returned key is a registered id
that bounds every registered id. -/
theorem max?_spec {xs : List Nat} {m : Nat} (h : xs.max? = some m) :
    m ∈ xs ∧ ∀ b ∈ xs, b ≤ m := by
  exact (List.max?_eq_some_iff (fun a => Nat.le_refl a)
    (fun a b => max_choice a b) (fun a b c => Nat.max_le)).mp h

/-- Consecutive `get_next_serial` calls count up from the stored value,
wrapping at `2 ^ 32`. -/
theorem afterCalls_serial (s : Socket) (hlt : s.next_serial < 2 ^ 32) :
    ∀ n, (Socket.afterCalls s n).next_serial = (s.next_serial + n) % 2 ^ 32 := by
  intro n
  induction n with
  | zero =>
    simp only [Socket.afterCalls, Nat.add_zero]
    omega
  | succ n ih =>
    simp only [Socket.afterCalls, Socket.get_next_serial, ih]
    omega

/-! ## Claim theorems -/

/-- Claim C10: ID allocation reserves nothing and mutates nothing.
Both allocation operations hand the object table back unchanged, and
two consecutive calls to the same operation with no intervening
`add_object` or `remove_object` return equal IDs. -/
theorem claim_C10_allocation_is_pure (o : ObjMap) :
    (get_next_available_client_object_id o).2 = o ∧
    (get_next_available_server_object_id o).2 = o ∧
    (get_next_available_client_object_id
        ((get_next_available_client_object_id o).2)).1
      = (get_next_available_client_object_id o).1 ∧
    (get_next_available_server_object_id
        ((get_next_available_server_object_id o).2)).1
      = (get_next_available_server_object_id o).1 :=
  ⟨rfl, rfl, rfl, rfl⟩

/-- Claim C8: `get_next_serial` returns the current 32-bit counter
value and post-increments it; at the maximum value `2 ^ 32 - 1` the
call returns that value and the counter wraps to 0 instead of the
operation failing. -/
theorem claim_C8_serial_wraps (s : Socket) (hmax : s.next_serial = 2 ^ 32 - 1) :
    s.get_next_serial.1 = 2 ^ 32 - 1 ∧ (s.get_next_serial.2).next_serial = 0 := by
  refine ⟨hmax, ?_⟩
  show (s.next_serial + 1) % 2 ^ 32 = 0
  rw [hmax]
  decide

/-- Witness for C8 at a socket whose counter holds the maximum. -/
theorem claim_C8_witness :
    (Socket.mk 0 (2 ^ 32 - 1) Option.none).next_serial = 2 ^ 32 - 1 ∧
    ((Socket.mk 0 (2 ^ 32 - 1) Option.none).get_next_serial.1 = 2 ^ 32 - 1 ∧
     ((Socket.mk 0 (2 ^ 32 - 1) Option.none).get_next_serial.2).next_serial = 0) :=
  ⟨rfl, claim_C8_serial_wraps (Socket.mk 0 (2 ^ 32 - 1) Option.none) rfl⟩

/-- Claim C7: default socket path resolution.  With
`XDG_RUNTIME_DIR=/tmp` and `WAYLAND_DISPLAY` unset the result is
`/tmp/wayland-0`; with `WAYLAND_DISPLAY=foo` it is `/tmp/foo`; with
`XDG_RUNTIME_DIR` unset the resolver fails with `Other`. -/
theorem claim_C7_default_socket_path :
    get_default_socket_path
        (fun name => if name = "XDG_RUNTIME_DIR" then some "/tmp" else Option.none)
      = Except.ok "/tmp/wayland-0" ∧
    get_default_socket_path
        (fun name => if name = "XDG_RUNTIME_DIR" then some "/tmp"
         else if name = "WAYLAND_DISPLAY" then some "foo" else Option.none)
      = Except.ok "/tmp/foo" ∧
    get_default_socket_path (fun _ => Option.none)
      = Except.error (SkylaneError.Other "environment variable not found") :=
  ⟨rfl, rfl, rfl⟩

/-- Claim C6: a Controller obtained from a Connection, and every clone
of it, shares the Connection's registry and socket rather than holding
copies: adding an object through the Controller is the same
transformation of the shared heap as adding it through the Connection,
a subsequent handler lookup through either view yields that same
object, and both views return a socket with the same descriptor. -/
theorem claim_C6_controller_shares_state (conn : Connection) (σ : ObjStore)
    (id : Nat) (obj : Object) :
    Controller.add_object conn.get_controller σ id obj
      = Connection.add_object conn σ id obj ∧
    Controller.add_object (conn.get_controller).clone σ id obj
      = Connection.add_object conn σ id obj ∧
    Bundle.get_handler (conn.get_controller).bundle
        (Connection.add_object conn σ id obj) id = Except.ok obj ∧
    Bundle.get_handler conn.bundle
        (Connection.add_object conn σ id obj) id = Except.ok obj ∧
    (conn.get_controller).get_socket.fd = conn.get_socket.fd := by
  refine ⟨rfl, rfl, ?_, ?_, rfl⟩ <;>
    simp [Bundle.get_handler, Connection.add_object, Connection.get_controller,
      Bundle.duplicate, Bundle.add_object, Controller.clone, omGet_omInsert_self]

/-- Counterexample to claim C4, which asserts that the serial counter
is shared among all clones of a Socket so that calls across the clones
return the single sequence 0, 1, 2, ….  `Socket` derives `Clone` and
keeps the counter in a by-value `Cell<u32>`, so a clone copies the
counter.  Take a fresh socket and a clone of it; the first call on the
original returns 0, and the next call — made on the clone, whose state
the original's call did not touch — returns 0 again, where the claimed
shared sequence requires 1. -/
theorem claim_C4_counterexample :
    (Socket.fresh 3).get_next_serial.1 = 0 ∧
    ((Socket.fresh 3).clone).get_next_serial.1 = 0 ∧
    ¬ ((Socket.fresh 3).clone).get_next_serial.1 = 1 :=
  ⟨rfl, rfl, by decide⟩

/-- Claim C4 as amended: the serial counter is per-value, not shared.
Cloning a Socket copies its state (so later calls on the clone are
unaffected by calls on the original), and on any one socket the
consecutive `get_next_serial` calls return `v, v + 1, …` (mod `2 ^ 32`)
starting from its stored counter `v`; a freshly connected socket
therefore returns 0, 1, 2, …. -/
theorem claim_C4_amended_serial (s : Socket) (fd : Int) (n : Nat)
    (hlt : s.next_serial < 2 ^ 32) :
    Socket.clone s = s ∧
    Socket.serialAt s n = (s.next_serial + n) % 2 ^ 32 ∧
    Socket.serialAt (Socket.fresh fd) n = n % 2 ^ 32 := by
  refine ⟨rfl, ?_, ?_⟩
  · show (Socket.afterCalls s n).next_serial = (s.next_serial + n) % 2 ^ 32
    exact afterCalls_serial s hlt n
  · show (Socket.afterCalls (Socket.fresh fd) n).next_serial = n % 2 ^ 32
    have h0 : (Socket.fresh fd).next_serial < 2 ^ 32 := by
      show (0 : Nat) < 2 ^ 32
      decide
    rw [afterCalls_serial (Socket.fresh fd) h0 n]
    show (0 + n) % 2 ^ 32 = n % 2 ^ 32
    rw [Nat.zero_add]

/-- Witness for the amended C4 at a fresh socket and five calls. -/
theorem claim_C4_amended_witness :
    (Socket.fresh 7).next_serial < 2 ^ 32 ∧
    (Socket.clone (Socket.fresh 7) = Socket.fresh 7 ∧
     Socket.serialAt (Socket.fresh 7) 5 = ((Socket.fresh 7).next_serial + 5) % 2 ^ 32 ∧
     Socket.serialAt (Socket.fresh 7) 5 = 5 % 2 ^ 32) :=
  ⟨by decide, claim_C4_amended_serial (Socket.fresh 7) 7 5 (by decide)⟩

theorem omMaxKey_none_iff (o : ObjMap) :
    omMaxKey o = Option.none ↔ ∀ id, ¬ registered o id := by
  rw [omMaxKey, List.max?_eq_none_iff, List.eq_nil_iff_forall_not_mem]

/-- Claim C5: `get_next_available_client_object_id` returns
`DISPLAY_ID` when the registry is empty or every registered ID is below
`DISPLAY_ID`, and otherwise the maximum registered ID incremented by
one; `get_next_available_server_object_id` is symmetric with
`SERVER_START_ID`. -/
theorem claim_C5_allocation_policy (o : ObjMap) :
    ((∀ id, ¬ registered o id) →
      (get_next_available_client_object_id o).1 = DISPLAY_ID ∧
      (get_next_available_server_object_id o).1 = SERVER_START_ID) ∧
    ((∀ id, registered o id → id < DISPLAY_ID) →
      (get_next_available_client_object_id o).1 = DISPLAY_ID) ∧
    (∀ m, registered o m → (∀ id, registered o id → id ≤ m) → DISPLAY_ID ≤ m →
      (get_next_available_client_object_id o).1 = ObjectId.incremented m) ∧
    ((∀ id, registered o id → id < SERVER_START_ID) →
      (get_next_available_server_object_id o).1 = SERVER_START_ID) ∧
    (∀ m, registered o m → (∀ id, registered o id → id ≤ m) → SERVER_START_ID ≤ m →
      (get_next_available_server_object_id o).1 = ObjectId.incremented m) := by
  cases hmk : omMaxKey o with
  | none =>
    have hemp := (omMaxKey_none_iff o).mp hmk
    exact ⟨fun _ => ⟨by simp [get_next_available_client_object_id, hmk],
        by simp [get_next_available_server_object_id, hmk]⟩,
      fun _ => by simp [get_next_available_client_object_id, hmk],
      fun m hm _ _ => absurd hm (hemp m),
      fun _ => by simp [get_next_available_server_object_id, hmk],
      fun m hm _ _ => absurd hm (hemp m)⟩
  | some M =>
    obtain ⟨hMmem, hMbound⟩ := max?_spec (show (o.map Prod.fst).max? = some M from hmk)
    refine ⟨fun hemp => absurd hMmem (hemp M), fun hall => ?_, fun m hm hmax hge => ?_,
      fun hall => ?_, fun m hm hmax hge => ?_⟩
    · have hlt : M < DISPLAY_ID := hall M hMmem
      simp [get_next_available_client_object_id, hmk, Nat.not_le.mpr hlt]
    · have heq : M = m := Nat.le_antisymm (hmax M hMmem) (hMbound m hm)
      subst heq
      simp [get_next_available_client_object_id, hmk, hge]
    · have hlt : M < SERVER_START_ID := hall M hMmem
      simp [get_next_available_server_object_id, hmk, Nat.not_le.mpr hlt]
    · have heq : M = m := Nat.le_antisymm (hmax M hMmem) (hMbound m hm)
      subst heq
      simp [get_next_available_server_object_id, hmk, hge]

/-- Witness for C5 on the registry with ids 1 and 2: the client
allocator returns the incremented maximum, the server allocator the
start of the server range. -/
theorem claim_C5_witness :
    registered [(1, objNone), (2, objFail)] 2 ∧ DISPLAY_ID ≤ 2 ∧
    (get_next_available_client_object_id [(1, objNone), (2, objFail)]).1
      = ObjectId.incremented 2 ∧
    (get_next_available_server_object_id [(1, objNone), (2, objFail)]).1
      = SERVER_START_ID := by
  have hmax : ∀ id, registered [(1, objNone), (2, objFail)] id → id ≤ 2 := by
    intro id hid
    simp at hid
    rcases hid with h1 | h1 <;> subst h1 <;> decide
  have hbelow : ∀ id, registered [(1, objNone), (2, objFail)] id → id < SERVER_START_ID := by
    intro id hid
    simp at hid
    rcases hid with h1 | h1 <;> subst h1 <;> decide
  exact ⟨by decide, by decide,
    (claim_C5_allocation_policy _).2.2.1 2 (by decide) hmax (by decide),
    (claim_C5_allocation_policy _).2.2.2.1 hbelow⟩

/-- Claim C2: the Task returned by each dispatch is applied after that
dispatch returns and before the next message is read.  Under a
successful lookup: `Create{id, object}` makes a lookup of `id` yield
that object, `Destroy{id}` removes the entry under `id` — also when
`id` is the dispatched handler's own id — without fault, and `None`
leaves the table unchanged; when the message is the last of the batch
a `Create` is visible in the table `drive()` hands back. -/
theorem claim_C2_task_application (o : ObjMap) (h : Header) (handler : Object)
    (hget : omGet o h.object_id = some handler) :
    (∀ id obj, handler.dispatch h = .ok (Task.create id obj) →
      processEvent o h = (Except.ok (omInsert o id obj), [h]) ∧
      omGet (omInsert o id obj) id = some obj) ∧
    (∀ id, handler.dispatch h = .ok (Task.destroy id) →
      processEvent o h = (Except.ok (omRemove o id), [h]) ∧
      omGet (omRemove o id) id = Option.none) ∧
    (handler.dispatch h = .ok Task.none →
      processEvent o h = (Except.ok o, [h])) ∧
    (∀ buf bytesSize pos fuel id obj,
      pos < bytesSize → parseHeader buf pos = some h →
      bytesSize ≤ pos + h.size →
      handler.dispatch h = .ok (Task.create id obj) →
      processLoop o buf bytesSize pos (fuel + 1)
        = (some (Except.ok ()), omInsert o id obj, [h])) := by
  refine ⟨fun id obj hd => ⟨processEvent_ok o h handler _ hget hd, omGet_omInsert_self o id obj⟩,
    fun id hd => ⟨processEvent_ok o h handler _ hget hd, omGet_omRemove_self o id⟩,
    fun hd => processEvent_ok o h handler _ hget hd,
    fun buf bytesSize pos fuel id obj hlt hparse hlast hd => ?_⟩
  rw [processLoop.eq_def, if_pos hlt]
  simp only [hparse, processEvent_ok o h handler _ hget hd]
  rw [processLoop.eq_def, if_neg (by omega)]
  simp [applyTask]

/-- Witness for C2: a handler under id 1 that creates `objNone` under
id 2; the task is applied and the new object is visible. -/
theorem claim_C2_witness :
    omGet [(1, objCreateTwo)] 1 = some objCreateTwo ∧
    (processEvent [(1, objCreateTwo)] ⟨1, 0, 8⟩
        = (Except.ok (omInsert [(1, objCreateTwo)] 2 objNone), [⟨1, 0, 8⟩]) ∧
     omGet (omInsert [(1, objCreateTwo)] 2 objNone) 2 = some objNone) :=
  ⟨rfl, (claim_C2_task_application [(1, objCreateTwo)] ⟨1, 0, 8⟩ objCreateTwo rfl).1 2 objNone rfl⟩

/-- Claim C3: at any loop state, a message whose object-id has no
registered handler makes the call return `WrongObject` with that id,
dispatching nothing further (empty trace from that point) and mutating
the table no further — the tasks of earlier messages, already applied
in the table at this state, remain applied; an error returned by a
dispatch likewise aborts the batch (the failing message is the last
entry of the trace) and is returned to the caller with the table
unchanged from this state on. -/
theorem claim_C3_errors_abort_batch (o : ObjMap) (buf : List Nat)
    (bytesSize pos : Nat) (h : Header) (fuel : Nat)
    (hlt : pos < bytesSize)
    (hparse : parseHeader buf pos = some h) :
    (omGet o h.object_id = Option.none →
      processLoop o buf bytesSize pos (fuel + 1)
        = (some (Except.error (SkylaneError.WrongObject h.object_id)), o, [])) ∧
    (∀ handler e, omGet o h.object_id = some handler →
      handler.dispatch h = .err e →
      processLoop o buf bytesSize pos (fuel + 1)
        = (some (Except.error e), o, [h])) := by
  constructor
  · intro hnone
    rw [processLoop.eq_def, if_pos hlt]
    simp [hparse, processEvent, hnone]
  · intro handler e hget hdisp
    rw [processLoop.eq_def, if_pos hlt]
    simp [hparse, processEvent, hget, hdisp]

/-- Witness for C3: the spec's own scenario — a message for object-id
99 with no handler registered yields `WrongObject{99}` and an unchanged
registry. -/
theorem claim_C3_witness :
    (0 : Nat) < 8 ∧
    parseHeader (encodeHeader ⟨99, 0, 8⟩) 0 = some ⟨99, 0, 8⟩ ∧
    omGet [(1, objNone)] 99 = Option.none ∧
    processLoop [(1, objNone)] (encodeHeader ⟨99, 0, 8⟩) 8 0 1
      = (some (Except.error (SkylaneError.WrongObject 99)), [(1, objNone)], []) :=
  ⟨by decide, rfl, rfl,
    (claim_C3_errors_abort_batch [(1, objNone)] (encodeHeader ⟨99, 0, 8⟩) 8 0
      ⟨99, 0, 8⟩ 0 (by decide) rfl).1 rfl⟩

set_option maxRecDepth 100000 in
/-- Counterexample to claim C1 as stated.  The claim quantifies over
every registry with a handler registered under each message's oid and
promises one dispatch per message; but a handler's task can unregister
a later message's oid mid-batch.  Concretely: ids 1 and 2 are both
registered, the batch holds the two well-formed size-8 messages for
oids 1 and 2, the handler under 1 returns `Destroy{2}` (a successful
dispatch), and the run then returns `WrongObject{2}` with a trace
showing the handler under 2 was dispatched zero times — not exactly
once — even though every dispatch that occurred succeeded. -/
theorem claim_C1_counterexample :
    registered [(1, objDestroyTwo), (2, objNone)] 1 ∧
    registered [(1, objDestroyTwo), (2, objNone)] 2 ∧
    MsgWF (⟨1, 0, 8⟩, []) ∧ MsgWF (⟨2, 0, 8⟩, []) ∧
    processEvents [(1, objDestroyTwo), (2, objNone)]
        (encodeMsg (⟨1, 0, 8⟩, []) ++ encodeMsg (⟨2, 0, 8⟩, [])) 3
      = (some (Except.error (SkylaneError.WrongObject 2)),
         [(1, objDestroyTwo)], [⟨1, 0, 8⟩]) := by
  refine ⟨by decide, by decide, by decide, by decide, ?_⟩
  rfl

/-- Claim C1 as amended: the per-message condition must hold when the
message is reached, not merely in the initial registry.  For a batch of
well-formed messages (headers in range, each size field equal to the
message length, hence at least 8, sizes summing to the batch length by
construction) that fits the 1024-byte receive buffer, if each message
in turn finds a handler under its oid in the current table and that
dispatch succeeds (`Dispatches`), then one `process_events` call
returns success, dispatches each message's handler exactly once in
wire order passing exactly the message's header (so `header.size =
size_i`), and leaves the table produced by applying the tasks in
order. -/
theorem claim_C1_amended_framing (msgs : List Msg) (o o2 : ObjMap) (fuel : Nat)
    (hwf : ∀ m ∈ msgs, MsgWF m)
    (hdisp : Dispatches o (msgs.map Prod.fst) o2)
    (_hlen : ((msgs.map encodeMsg).flatten).length ≤ 1024)
    (hfuel : msgs.length ≤ fuel) :
    processEvents o ((msgs.map encodeMsg).flatten) fuel
      = (some (Except.ok ()), o2, msgs.map Prod.fst) := by
  have hrun := processLoop_run msgs o o2 []
    (List.replicate (1024 - ((msgs.map encodeMsg).flatten).length) 0) fuel hwf hdisp hfuel
  simpa [processEvents] using hrun

/-- Witness for the amended C1: two messages to id 1 whose handler
requests nothing; both are dispatched in order and the call
succeeds. -/
theorem claim_C1_amended_witness :
    (∀ m ∈ ([(⟨1, 0, 8⟩, []), (⟨1, 7, 8⟩, [])] : List Msg), MsgWF m) ∧
    processEvents [(1, objNone)]
        ((([(⟨1, 0, 8⟩, []), (⟨1, 7, 8⟩, [])] : List Msg).map encodeMsg).flatten) 2
      = (some (Except.ok ()), [(1, objNone)], [⟨1, 0, 8⟩, ⟨1, 7, 8⟩]) :=
  ⟨by decide,
    claim_C1_amended_framing [(⟨1, 0, 8⟩, []), (⟨1, 7, 8⟩, [])] [(1, objNone)] [(1, objNone)] 2
      (by decide)
      (Dispatches.cons objNone Task.none rfl rfl
        (Dispatches.cons objNone Task.none rfl rfl (Dispatches.nil [(1, objNone)])))
      (by decide) (by decide)⟩

set_option maxRecDepth 100000 in
/-- Witness for C9: a single message for id 1 whose header carries
size 0 and whose handler returns `Task::None`; with fuel 2 the run is
cut off after re-dispatching the same message twice, the table
untouched. -/
theorem claim_C9_witness :
    (0 : Nat) < 8 ∧
    parseHeader (encodeHeader ⟨1, 0, 0⟩ ++ List.replicate (1024 - 8) 0) 0 = some ⟨1, 0, 0⟩ ∧
    omGet [(1, objNone)] 1 = some objNone ∧
    objNone.dispatch ⟨1, 0, 0⟩ = .ok Task.none ∧
    processEvents [(1, objNone)] (encodeHeader ⟨1, 0, 0⟩) 2
      = (Option.none, [(1, objNone)], [⟨1, 0, 0⟩, ⟨1, 0, 0⟩]) := by
  refine ⟨by decide, by rfl, rfl, rfl, ?_⟩
  exact claim_C9_zero_size_nontermination [(1, objNone)]
    (encodeHeader ⟨1, 0, 0⟩ ++ List.replicate (1024 - 8) 0) 8 0 ⟨1, 0, 0⟩ objNone
    (by decide) (by rfl) rfl rfl rfl 2

end Skylane
